import Mathlib

/-!
Verification of the Tree Search Language (TSL) semantic evaluator
(`pkg/walkers/semantics`): the runtime value model, the AST node model,
the error taxonomy, the coercion helpers, the operator evaluators from
`evaluators.go`, and the two tree walkers (the refactored `Walk` that
dispatches to `handleBinaryExpression` / `handleUnaryExpression` /
`handleArrayLiteral`, and the older monolithic `Walk` with inline
per-operator handling).

Modelling conventions:
* Go `interface{}` runtime values are embedded as the closed `Value`
  inductive below; Go `float64` numbers are embedded as exact rationals
  (`Rat`), which is faithful for every comparison, range test and
  arithmetic fact the claims exercise (no claim depends on rounding,
  NaN or infinities).
* Go `time.Time` instants are embedded as integers ordered
  chronologically; `t.Before u` is `t < u`, `t.Equal u` is `t = u`.
* Fallible Go functions returning `(T, error)` are embedded as
  `Except Err T`; a Go runtime panic (which is not a returned error) is
  embedded as the distinguished outcome `Err.panicked`.
* AST nodes are embedded as a typed inductive, so the `nil`-node guards
  and the `.(tsl.TSLExpressionOp)` payload type assertions of the source
  (which can only fail on trees the parser never produces) have no
  counterpart here.
-/

/-- Runtime value kinds flowing through the evaluator: the dynamic types
Go `interface{}` values can carry in this code base (`nil`, `bool`,
`float64`, `int`, `string`, `time.Time`, `[]interface{}`). -/
inductive Value where
  | VNil : Value
  | VBool (b : Bool) : Value
  | VFloat (x : Rat) : Value
  | VInt (i : Int) : Value
  | VString (s : String) : Value
  | VTime (t : Int) : Value
  | VArray (vs : List Value) : Value

/-- The closed operator enumeration of the `tsl` package, with the Go
constant names. -/
inductive Op where
  | OpEQ | OpNE | OpLT | OpLE | OpGT | OpGE
  | OpREQ | OpRNE
  | OpAnd | OpOr | OpNot
  | OpLike | OpILike
  | OpIn | OpBetween | OpIs
  | OpPlus | OpMinus | OpStar | OpSlash | OpPercent
  deriving DecidableEq, Repr

/-- Failure outcomes of a walk.  The first four constructors embed the
structured error taxonomy of the `tsl` package (`TypeMismatchError`,
`KeyNotFoundError`, `DivisionByZeroError`, `UnexpectedOperatorError`).
`regexCompileError` embeds an error returned by Go's `regexp` package
from `EvalRegexp`.  `panicked` embeds a Go runtime panic — a crash, not
a returned error value (it occurs when `==` compares two
`[]interface{}` values, and when `%` performs an integer division by
zero after truncation). -/
inductive Err where
  | typeMismatch (expected : String) (got : Value) : Err
  | keyNotFound (key : String) : Err
  | divisionByZero (operation : String) : Err
  | unexpectedOperator (op : Op) : Err
  | regexCompileError (pat : String) : Err
  | panicked : Err

/-- AST nodes (`tsl.TSLNode`): a kind tag with payload.  `literal`
covers the default case of the walkers' kind switch (a node whose
`Value()` is returned as-is). -/
inductive TSLNode where
  | identifier (name : String) : TSLNode
  | literal (v : Value) : TSLNode
  | arrayLiteral (children : List TSLNode) : TSLNode
  | unaryExpr (op : Op) (right : TSLNode) : TSLNode
  | binaryExpr (op : Op) (left : TSLNode) (right : TSLNode) : TSLNode
  | nullLiteral : TSLNode

/-- The caller-supplied lookup (`EvalFunc = func(string) (interface{}, bool)`);
`none` is the `ok = false` outcome. -/
def EvalFn := String → Option Value

/-- The dynamic type name `fmt.Sprintf("%T", v)` renders for each value
kind (used in the `Got` field of `TypeMismatchError` by `walk.go`). -/
def goTypeName : Value → String
  | .VNil => "<nil>"
  | .VBool _ => "bool"
  | .VFloat _ => "float64"
  | .VInt _ => "int"
  | .VString _ => "string"
  | .VTime _ => "time.Time"
  | .VArray _ => "[]interface \x7b\x7d"

/-- Go type assertion `v.(bool)`. -/
def asBool : Value → Option Bool
  | .VBool b => some b
  | _ => none

/-- Go type assertion `v.(string)`. -/
def asString : Value → Option String
  | .VString s => some s
  | _ => none

/-- Go type assertion `v.([]interface{})`. -/
def asArray : Value → Option (List Value)
  | .VArray vs => some vs
  | _ => none

/-- Go comparison `v == nil` on an `interface{}` value. -/
def isNull : Value → Bool
  | .VNil => true
  | _ => false

/-- Whether a value is an array (`[]interface{}`). -/
def isArr : Value → Bool
  | .VArray _ => true
  | _ => false

/-- Go interface equality `leftVal == rightVal`: equal iff the dynamic
types are identical and the dynamic values are equal (or both are nil).
Comparing two values of the uncomparable dynamic type `[]interface{}`
is a run-time panic in Go, embedded as the `panicked` outcome. -/
def goInterfaceEq : Value → Value → Except Err Bool
  | .VArray _, .VArray _ => .error .panicked
  | .VNil, .VNil => .ok true
  | .VBool a, .VBool b => .ok (a == b)
  | .VFloat a, .VFloat b => .ok (a == b)
  | .VInt a, .VInt b => .ok (a == b)
  | .VString a, .VString b => .ok (a == b)
  | .VTime a, .VTime b => .ok (a == b)
  | _, _ => .ok false

/-- Numeric value of a decimal digit character. -/
def digitVal (c : Char) : Nat := c.toNat - 48

/-- Two-digit decimal field. -/
def twoDigits (a b : Char) : Nat := 10 * digitVal a + digitVal b

/-- Modelled from the spec: the evaluator calls the Go standard
library's `time.Parse(time.RFC3339, s)`, which is outside this
repository.  §4.1/§4.2 only need "parses as an RFC-3339 timestamp", so
the model accepts the UTC form `YYYY-MM-DDTHH:MM:SSZ` with in-range
fields and encodes the instant as a mixed-radix integer that orders
chronologically; other RFC-3339 shapes (offsets, fractional seconds)
are treated as non-parsing. -/
def parseRFC3339 (s : String) : Option Int :=
  match s.data with
  | [y1, y2, y3, y4, '-', mo1, mo2, '-', d1, d2, 'T',
     h1, h2, ':', mi1, mi2, ':', se1, se2, 'Z'] =>
    if ([y1, y2, y3, y4, mo1, mo2, d1, d2, h1, h2, mi1, mi2, se1, se2].all Char.isDigit) then
      let y := 1000 * digitVal y1 + 100 * digitVal y2 + 10 * digitVal y3 + digitVal y4
      let mo := twoDigits mo1 mo2
      let d := twoDigits d1 d2
      let h := twoDigits h1 h2
      let mi := twoDigits mi1 mi2
      let se := twoDigits se1 se2
      if 1 ≤ mo ∧ mo ≤ 12 ∧ 1 ≤ d ∧ d ≤ 31 ∧ h ≤ 23 ∧ mi ≤ 59 ∧ se ≤ 59 then
        some (Int.ofNat (((((y * 13 + mo) * 32 + d) * 24 + h) * 60 + mi) * 60 + se))
      else none
    else none
  | _ => none

/-- Modelled from the spec: the repository's `toFloat64` helper is
declared outside the files under src/ (only its call sites are
present).  §4.1: "`toNumber(v) -> (float64, ok)` ... only Number
passes" — string-to-number coercion is explicitly unsupported, and the
separate `int` fallbacks in `EvalBetween`/`EvalIn` show that Go `int`
values do not pass either. -/
def toFloat64 : Value → Option Rat
  | .VFloat x => some x
  | _ => none

/-- Modelled from the spec: the repository's `toDate` helper is
declared outside the files under src/.  §4.1: "succeeds if v is already
Timestamp, or if v is a String that parses as an RFC-3339 timestamp;
all other kinds fail". -/
def toDate : Value → Option Int
  | .VTime t => some t
  | .VString s => parseRFC3339 s
  | _ => none

/-- Tokens of the regular-expression fragment that the LIKE translation
produces: a literal character, `.` (exactly one character), and `.*`
(any character sequence). -/
inductive RTok where
  | lit (c : Char) : RTok
  | anyChar : RTok
  | anySeq : RTok
  deriving DecidableEq

/-- Regex metacharacters outside the modelled fragment ('.' is handled
separately by the compiler below). -/
def metaChar (c : Char) : Bool :=
  c = '\\' || c = '+' || c = '?' || c = '(' || c = ')' || c = '[' || c = ']' ||
  c = '|' || c = '^' || c = '$' || c = '*' || c = '{' || c = '}'

/-- Compile a pattern body (no anchors) into tokens; `none` models a
pattern outside the fragment, which Go's `regexp.Compile` may reject or
interpret with metacharacter semantics.  `.` followed by `*` compiles
to `anySeq`, a lone `.` to `anyChar`, a non-meta character to itself. -/
def compileRegex : List Char → Option (List RTok)
  | [] => some []
  | c :: rest =>
    if c = '.' then
      match rest with
      | r2 :: rest2 =>
        if r2 = '*' then (compileRegex rest2).map (fun ts => .anySeq :: ts)
        else (compileRegex (r2 :: rest2)).map (fun ts => .anyChar :: ts)
      | [] => some [.anyChar]
    else if metaChar c then none
    else (compileRegex rest).map (fun ts => .lit c :: ts)

/-- Anchored token matching: the token list must consume the whole
character list.  `anySeq` consumes an arbitrary prefix, i.e. the rest
of the tokens must match some suffix. -/
def tokensMatch : List RTok → List Char → Bool
  | [], ds => ds.isEmpty
  | .lit c :: ts, ds =>
    match ds with
    | d :: ds2 => c == d && tokensMatch ts ds2
    | [] => false
  | .anyChar :: ts, ds =>
    match ds with
    | _ :: ds2 => tokensMatch ts ds2
    | [] => false
  | .anySeq :: ts, ds => ds.tails.any (fun suf => tokensMatch ts suf)

/-- Unanchored-at-the-end token matching: the token list must consume
some prefix of the character list. -/
def tokensMatchFront : List RTok → List Char → Bool
  | [], _ => true
  | .lit c :: ts, ds =>
    match ds with
    | d :: ds2 => c == d && tokensMatchFront ts ds2
    | [] => false
  | .anyChar :: ts, ds =>
    match ds with
    | _ :: ds2 => tokensMatchFront ts ds2
    | [] => false
  | .anySeq :: ts, ds => ds.tails.any (fun suf => tokensMatchFront ts suf)

/-- Fully unanchored matching: some substring matches the tokens. -/
def tokensFind (ts : List RTok) (ds : List Char) : Bool :=
  ds.tails.any (fun suf => tokensMatchFront ts suf)

/-- Modelled from the spec: the evaluator calls the Go standard
library's `regexp.MatchString(p, v)`, which is outside this repository.
The model covers the fragment §4.3 describes (literal characters, `.`,
`.*`, and a pattern fully anchored as `^...$` — exactly what the LIKE
translation emits); a pattern outside the fragment yields `none`,
modelling a compile error (for LIKE, "the match simply fails"). -/
def goRegexpMatch (p v : String) : Option Bool :=
  match p.data with
  | '^' :: rest =>
    match rest.getLast? with
    | some '$' => (compileRegex rest.dropLast).map (fun ts => tokensMatch ts v.data)
    | _ => none
  | cs => (compileRegex cs).map (fun ts => tokensFind ts v.data)

/-- Go `strings.ReplaceAll(s, old, rep)` specialised to a single-char
`old` (the only uses are `"%"` and `"_"`). -/
def replaceAllChar (s : String) (old : Char) (rep : String) : String :=
  String.mk (s.data.flatMap (fun c => if c = old then rep.data else [c]))

/-- Modelled from the spec: Go `strings.ToLower`, which is outside this
repository; ASCII case folding (the claims only exercise ASCII). -/
def goToLower (s : String) : String := String.mk (s.data.map Char.toLower)

/-- `EvalIdent` (evaluators.go): resolve an identifier through the
lookup; not-found is `KeyNotFoundError`; a found string that parses as
RFC-3339 is promoted to a timestamp; every other found value is
returned unchanged.  (The Go function also guards against a nil or
non-identifier node, cases the typed embedding cannot express.) -/
def EvalIdent (identName : String) (eval : EvalFn) : Except Err Value :=
  match eval identName with
  | none => .error (.keyNotFound identName)
  | some value =>
    match value with
    | .VString strValue =>
      match parseRFC3339 strValue with
      | some t => .ok (.VTime t)
      | none => .ok value
    | _ => .ok value

/-- `EvalIn` (evaluators.go): membership of a value in an array, by
same-kind equality; a `float64` left value also matches `int` items; a
nil left value short-circuits to `false`; any other left kind is a
`TypeMismatchError` whose `Got` field carries the value itself.
(Go's distinction between a nil and an empty `[]interface{}` is not
representable here; the `arr == nil` early return of the source is the
behaviour of the empty list for the four supported kinds.) -/
def EvalIn (value : Value) (arr : List Value) : Except Err Bool :=
  match value with
  | .VNil => .ok false
  | .VString v =>
    .ok (arr.any (fun item => match item with
      | .VString s => s == v
      | _ => false))
  | .VFloat v =>
    .ok (arr.any (fun item => match item with
      | .VFloat x => x == v
      | .VInt i => (i : Rat) == v
      | _ => false))
  | .VTime v =>
    .ok (arr.any (fun item => match item with
      | .VTime t => t == v
      | _ => false))
  | .VBool v =>
    .ok (arr.any (fun item => match item with
      | .VBool b => b == v
      | _ => false))
  | other => .error (.typeMismatch "string, float64, time.Time, or bool" other)

/-- The bound coercion inside `EvalBetween`'s `float64` branch:
`toFloat64`, then the explicit `int` type-assertion fallback. -/
def numBound (v : Value) : Option Rat :=
  match toFloat64 v with
  | some a => some a
  | none =>
    match v with
    | .VInt i => some (i : Rat)
    | _ => none

/-- `EvalBetween` (evaluators.go): inclusive range test.  A `float64`
value coerces both bounds via `toFloat64` with an `int` fallback; a
`time.Time` value requires `time.Time` bounds
(`!v.Before(min) && !v.After(max)`); anything else is a
`TypeMismatchError`. -/
def EvalBetween (value minv maxv : Value) : Except Err Bool :=
  match value with
  | .VFloat v =>
    match numBound minv, numBound maxv with
    | some minVal, some maxVal => .ok (decide (v ≥ minVal) && decide (v ≤ maxVal))
    | _, _ => .error (.typeMismatch "numeric values" value)
  | .VTime v =>
    match minv, maxv with
    | .VTime minTime, .VTime maxTime =>
      .ok (!decide (v < minTime) && !decide (v > maxTime))
    | _, _ => .error (.typeMismatch "time values" value)
  | _ => .error (.typeMismatch "numeric or time.Time values" value)

/-- `EvalLike` (evaluators.go): both operands must be strings; the
pattern's `%` is rewritten to `.*` and `_` to `.`, the result is
anchored as `^...$` and handed to `regexp.MatchString`, whose error is
discarded (`matched, _ :=`) so a non-compiling pattern yields `false`. -/
def EvalLike (value pattern : Value) : Except Err Bool :=
  match asString value with
  | none => .error (.typeMismatch "string" value)
  | some valueStr =>
    match asString pattern with
    | none => .error (.typeMismatch "string" pattern)
    | some patternStr =>
      let p1 := replaceAllChar patternStr '%' ".*"
      let p2 := replaceAllChar p1 '_' "."
      .ok ((goRegexpMatch ("^" ++ p2 ++ "$") valueStr).getD false)

/-- `EvalILike` (evaluators.go): both operands must be strings; both
are lower-cased and handed to `EvalLike`. -/
def EvalILike (value pattern : Value) : Except Err Bool :=
  match asString value with
  | none => .error (.typeMismatch "string" value)
  | some valueStr =>
    match asString pattern with
    | none => .error (.typeMismatch "string" pattern)
    | some patternStr =>
      EvalLike (.VString (goToLower valueStr)) (.VString (goToLower patternStr))

/-- `EvalRegexp` (evaluators.go): both operands must be strings; the
right operand is used as a regular expression; a compile error is
propagated. -/
def EvalRegexp (value pattern : Value) : Except Err Bool :=
  match asString value with
  | none => .error (.typeMismatch "string" value)
  | some valueStr =>
    match asString pattern with
    | none => .error (.typeMismatch "string" pattern)
    | some patternStr =>
      match goRegexpMatch patternStr valueStr with
      | some matched => .ok matched
      | none => .error (.regexCompileError patternStr)

/-- Modelled from the spec: `handleIdentifier`, called by the
refactored `Walk`, is not under src/; §4.2 specifies identifier
resolution once, identically to `EvalIdent`. -/
def handleIdentifier : String → EvalFn → Except Err Value := EvalIdent

/-- Modelled from the spec: `evaluateRegexMatch` is not under src/; the
spec gives a single regex-match semantics (§4.3), that of `EvalRegexp`. -/
def evaluateRegexMatch : Value → Value → Except Err Bool := EvalRegexp

/-- Modelled from the spec: `evaluateLikePattern` is not under src/;
§4.3 gives a single `like` semantics, that of `EvalLike`. -/
def evaluateLikePattern : Value → Value → Except Err Bool := EvalLike

/-- Modelled from the spec: `evaluateIlikePattern` is not under src/;
§4.3 gives a single `ilike` semantics, that of `EvalILike`. -/
def evaluateIlikePattern : Value → Value → Except Err Bool := EvalILike

/-- Modelled from the spec: `isValueInArray` is not under src/; §4.3
gives a single `in` semantics, that of `EvalIn`. -/
def isValueInArray : Value → List Value → Except Err Bool := EvalIn

/-- Modelled from the spec: `isValueInRange` is not under src/; §4.3
gives a single `between` semantics, that of `EvalBetween`. -/
def isValueInRange : Value → Value → Value → Except Err Bool := EvalBetween

/-- Go conversion `int64(x)` of a `float64`: truncation toward zero
(values outside the `int64` range have implementation-defined results
in Go and are embedded as exact truncation here). -/
def goTruncInt (q : Rat) : Int := Int.sign q.num * ((q.num.natAbs / q.den : Nat) : Int)

/-- Go `%` on `int64`: truncated remainder, carrying the sign of the
dividend (only called with a non-zero divisor). -/
def goIntMod (a b : Int) : Int := Int.sign a * ((a.natAbs % b.natAbs : Nat) : Int)

/-- `evaluateCompareExpressions` (the refactored walker): coerce both
sides with `toFloat64` and `toDate`; numbers compare numerically, else
dates compare chronologically, else `TypeMismatchError` expecting
"number or date" with both dynamic type names.  A non-ordering operator
falls through the inner switches to the trailing `return nil, nil`. -/
def evaluateCompareExpressions (operator : Op) (leftVal rightVal : Value) : Except Err Value :=
  match toFloat64 leftVal, toFloat64 rightVal with
  | some leftNum, some rightNum =>
    match operator with
    | .OpLT => .ok (.VBool (decide (leftNum < rightNum)))
    | .OpLE => .ok (.VBool (decide (leftNum ≤ rightNum)))
    | .OpGT => .ok (.VBool (decide (leftNum > rightNum)))
    | .OpGE => .ok (.VBool (decide (leftNum ≥ rightNum)))
    | _ => .ok .VNil
  | _, _ =>
    match toDate leftVal, toDate rightVal with
    | some leftDate, some rightDate =>
      match operator with
      | .OpLT => .ok (.VBool (decide (leftDate < rightDate)))
      | .OpLE => .ok (.VBool (decide (leftDate < rightDate) || decide (leftDate = rightDate)))
      | .OpGT => .ok (.VBool (decide (leftDate > rightDate)))
      | .OpGE => .ok (.VBool (decide (leftDate > rightDate) || decide (leftDate = rightDate)))
      | _ => .ok .VNil
    | _, _ =>
      .error (.typeMismatch "number or date"
        (.VString (goTypeName leftVal ++ " and " ++ goTypeName rightVal)))

/-- `evaluateLogicalExpression` (the refactored walker): both operands
must already be `bool`. -/
def evaluateLogicalExpression (operator : Op) (leftVal rightVal : Value) : Except Err Value :=
  match asBool leftVal with
  | none => .error (.typeMismatch "boolean" (.VString (goTypeName leftVal)))
  | some leftBool =>
    match asBool rightVal with
    | none => .error (.typeMismatch "boolean" (.VString (goTypeName rightVal)))
    | some rightBool =>
      match operator with
      | .OpAnd => .ok (.VBool (leftBool && rightBool))
      | .OpOr => .ok (.VBool (leftBool || rightBool))
      | _ => .error (.unexpectedOperator operator)

/-- `evaluateMathExpression` (the refactored walker): both sides must
pass `toFloat64`; `/` and `%` reject a zero right operand with
`DivisionByZeroError`; `%` then converts both floats to `int64` and
takes the integer remainder — when the right operand truncates to `0`
(e.g. `0.5`), that integer remainder is a Go run-time panic. -/
def evaluateMathExpression (operator : Op) (leftVal rightVal : Value) : Except Err Value :=
  match toFloat64 leftVal with
  | none => .error (.typeMismatch "number" (.VString (goTypeName leftVal)))
  | some leftNum =>
    match toFloat64 rightVal with
    | none => .error (.typeMismatch "number" (.VString (goTypeName rightVal)))
    | some rightNum =>
      match operator with
      | .OpPlus => .ok (.VFloat (leftNum + rightNum))
      | .OpMinus => .ok (.VFloat (leftNum - rightNum))
      | .OpStar => .ok (.VFloat (leftNum * rightNum))
      | .OpSlash =>
        if rightNum = 0 then .error (.divisionByZero "division")
        else .ok (.VFloat (leftNum / rightNum))
      | .OpPercent =>
        if rightNum = 0 then .error (.divisionByZero "modulus")
        else
          if goTruncInt rightNum = 0 then .error .panicked
          else .ok (.VFloat ((goIntMod (goTruncInt leftNum) (goTruncInt rightNum) : Int) : Rat))
      | _ => .error (.unexpectedOperator operator)

/-- The unary-operator dispatch, character-identical in both walkers:
`not` requires `bool`, unary `-` requires a number, anything else is
`UnexpectedOperatorError`. -/
def applyUnaryOperator (op : Op) (rightVal : Value) : Except Err Value :=
  match op with
  | .OpNot =>
    match asBool rightVal with
    | none => .error (.typeMismatch "boolean" (.VString (goTypeName rightVal)))
    | some rightBool => .ok (.VBool !rightBool)
  | .OpMinus =>
    match toFloat64 rightVal with
    | none => .error (.typeMismatch "number" (.VString (goTypeName rightVal)))
    | some rightNum => .ok (.VFloat (-rightNum))
  | _ => .error (.unexpectedOperator op)

/-- The operator dispatch of the refactored `handleBinaryExpression`
(part_001, lines 113-162), applied to the two already-evaluated
operand values. -/
def applyBinaryOperator (op : Op) (leftVal rightVal : Value) : Except Err Value :=
  match op with
  | .OpEQ => (goInterfaceEq leftVal rightVal).map .VBool
  | .OpNE => (goInterfaceEq leftVal rightVal).map (fun b => .VBool !b)
  | .OpLT | .OpLE | .OpGT | .OpGE => evaluateCompareExpressions op leftVal rightVal
  | .OpREQ => (evaluateRegexMatch leftVal rightVal).map .VBool
  | .OpRNE =>
    match evaluateRegexMatch leftVal rightVal with
    | .error e => .error e
    | .ok matched => .ok (.VBool !matched)
  | .OpAnd | .OpOr => evaluateLogicalExpression op leftVal rightVal
  | .OpLike => (evaluateLikePattern leftVal rightVal).map .VBool
  | .OpILike => (evaluateIlikePattern leftVal rightVal).map .VBool
  | .OpIn =>
    match asArray rightVal with
    | none => .error (.typeMismatch "array" (.VString (goTypeName rightVal)))
    | some rightArray => (isValueInArray leftVal rightArray).map .VBool
  | .OpBetween =>
    match asArray rightVal with
    | none => .error (.typeMismatch "array" (.VString (goTypeName rightVal)))
    | some [minv, maxv] => (isValueInRange leftVal minv maxv).map .VBool
    | some rightArray =>
      .error (.typeMismatch "min and max values"
        (.VString (toString rightArray.length ++ " values")))
  | .OpIs => if isNull rightVal then .ok (.VBool (isNull leftVal)) else .ok (.VBool false)
  | .OpPlus | .OpMinus | .OpStar | .OpSlash | .OpPercent =>
    evaluateMathExpression op leftVal rightVal
  | _ => .error (.unexpectedOperator op)

/-- `toFloat64` with the inline `TypeMismatchError{Expected: "number",
Got: %T}` pattern that `walk.go` repeats at every numeric cast. -/
def requireNumber (v : Value) : Except Err Rat :=
  match toFloat64 v with
  | none => .error (.typeMismatch "number" (.VString (goTypeName v)))
  | some n => .ok n

/-- The inline operator handling of the monolithic `Walk` (walk.go,
lines 96-257), applied to the two already-evaluated operand values.
It differs from `applyBinaryOperator` in the ordering comparisons
(numeric only, no date fallback, error expecting "number") and in the
`between` arity error (`Expected: "2 values"`). -/
def applyBinaryMono (op : Op) (leftVal rightVal : Value) : Except Err Value :=
  match op with
  | .OpEQ => (goInterfaceEq leftVal rightVal).map .VBool
  | .OpNE => (goInterfaceEq leftVal rightVal).map (fun b => .VBool !b)
  | .OpLT =>
    match requireNumber leftVal with
    | .error e => .error e
    | .ok leftNum =>
      match requireNumber rightVal with
      | .error e => .error e
      | .ok rightNum => .ok (.VBool (decide (leftNum < rightNum)))
  | .OpLE =>
    match requireNumber leftVal with
    | .error e => .error e
    | .ok leftNum =>
      match requireNumber rightVal with
      | .error e => .error e
      | .ok rightNum => .ok (.VBool (decide (leftNum ≤ rightNum)))
  | .OpGT =>
    match requireNumber leftVal with
    | .error e => .error e
    | .ok leftNum =>
      match requireNumber rightVal with
      | .error e => .error e
      | .ok rightNum => .ok (.VBool (decide (leftNum > rightNum)))
  | .OpGE =>
    match requireNumber leftVal with
    | .error e => .error e
    | .ok leftNum =>
      match requireNumber rightVal with
      | .error e => .error e
      | .ok rightNum => .ok (.VBool (decide (leftNum ≥ rightNum)))
  | .OpREQ => (EvalRegexp leftVal rightVal).map .VBool
  | .OpRNE =>
    match EvalRegexp leftVal rightVal with
    | .error e => .error e
    | .ok matched => .ok (.VBool !matched)
  | .OpAnd =>
    match asBool leftVal with
    | none => .error (.typeMismatch "boolean" (.VString (goTypeName leftVal)))
    | some leftBool =>
      match asBool rightVal with
      | none => .error (.typeMismatch "boolean" (.VString (goTypeName rightVal)))
      | some rightBool => .ok (.VBool (leftBool && rightBool))
  | .OpOr =>
    match asBool leftVal with
    | none => .error (.typeMismatch "boolean" (.VString (goTypeName leftVal)))
    | some leftBool =>
      match asBool rightVal with
      | none => .error (.typeMismatch "boolean" (.VString (goTypeName rightVal)))
      | some rightBool => .ok (.VBool (leftBool || rightBool))
  | .OpLike => (EvalLike leftVal rightVal).map .VBool
  | .OpILike => (EvalILike leftVal rightVal).map .VBool
  | .OpIn =>
    match asArray rightVal with
    | none => .error (.typeMismatch "array" (.VString (goTypeName rightVal)))
    | some rightArray => (EvalIn leftVal rightArray).map .VBool
  | .OpBetween =>
    match asArray rightVal with
    | none => .error (.typeMismatch "array" (.VString (goTypeName rightVal)))
    | some [minv, maxv] => (EvalBetween leftVal minv maxv).map .VBool
    | some rightArray =>
      .error (.typeMismatch "2 values" (.VString (toString rightArray.length ++ " values")))
  | .OpIs => if isNull rightVal then .ok (.VBool (isNull leftVal)) else .ok (.VBool false)
  | .OpPlus =>
    match requireNumber leftVal with
    | .error e => .error e
    | .ok leftNum =>
      match requireNumber rightVal with
      | .error e => .error e
      | .ok rightNum => .ok (.VFloat (leftNum + rightNum))
  | .OpMinus =>
    match requireNumber leftVal with
    | .error e => .error e
    | .ok leftNum =>
      match requireNumber rightVal with
      | .error e => .error e
      | .ok rightNum => .ok (.VFloat (leftNum - rightNum))
  | .OpStar =>
    match requireNumber leftVal with
    | .error e => .error e
    | .ok leftNum =>
      match requireNumber rightVal with
      | .error e => .error e
      | .ok rightNum => .ok (.VFloat (leftNum * rightNum))
  | .OpSlash =>
    match requireNumber leftVal with
    | .error e => .error e
    | .ok leftNum =>
      match requireNumber rightVal with
      | .error e => .error e
      | .ok rightNum =>
        if rightNum = 0 then .error (.divisionByZero "division")
        else .ok (.VFloat (leftNum / rightNum))
  | .OpPercent =>
    match requireNumber leftVal with
    | .error e => .error e
    | .ok leftNum =>
      match requireNumber rightVal with
      | .error e => .error e
      | .ok rightNum =>
        if rightNum = 0 then .error (.divisionByZero "modulus")
        else
          if goTruncInt rightNum = 0 then .error .panicked
          else .ok (.VFloat ((goIntMod (goTruncInt leftNum) (goTruncInt rightNum) : Int) : Rat))
  | _ => .error (.unexpectedOperator op)

mutual

/-- The refactored `Walk` (part_001): kind dispatch to
`handleIdentifier`, `handleBinaryExpression` (inlined here as the
right-then-left child evaluation followed by `applyBinaryOperator`),
`handleUnaryExpression`, and `handleArrayLiteral` (`walkList`); a null
literal evaluates to nil and any other node returns its payload. -/
def Walk : TSLNode → EvalFn → Except Err Value
  | .identifier name, eval => handleIdentifier name eval
  | .binaryExpr op left right, eval =>
    match Walk right eval with
    | .error e => .error e
    | .ok rightVal =>
      match Walk left eval with
      | .error e => .error e
      | .ok leftVal => applyBinaryOperator op leftVal rightVal
  | .unaryExpr op right, eval =>
    match Walk right eval with
    | .error e => .error e
    | .ok rightVal => applyUnaryOperator op rightVal
  | .arrayLiteral children, eval =>
    match walkList children eval with
    | .error e => .error e
    | .ok values => .ok (.VArray values)
  | .nullLiteral, _ => .ok .VNil
  | .literal v, _ => .ok v

/-- The child loop of `handleArrayLiteral`: evaluate every child
left-to-right, failing on the first error. -/
def walkList : List TSLNode → EvalFn → Except Err (List Value)
  | [], _ => .ok []
  | c :: cs, eval =>
    match Walk c eval with
    | .error e => .error e
    | .ok v =>
      match walkList cs eval with
      | .error e => .error e
      | .ok vs => .ok (v :: vs)

end

/-- The monolithic `Walk` (walk.go): same kind dispatch with inline
operator handling (`applyBinaryMono`); an array literal is NOT
evaluated — the case returns `nil, nil` ("should be handled by the
binary expression"). -/
def WalkMono : TSLNode → EvalFn → Except Err Value
  | .identifier name, eval => EvalIdent name eval
  | .binaryExpr op left right, eval =>
    match WalkMono right eval with
    | .error e => .error e
    | .ok rightVal =>
      match WalkMono left eval with
      | .error e => .error e
      | .ok leftVal => applyBinaryMono op leftVal rightVal
  | .unaryExpr op right, eval =>
    match WalkMono right eval with
    | .error e => .error e
    | .ok rightVal => applyUnaryOperator op rightVal
  | .arrayLiteral _, _ => .ok .VNil
  | .nullLiteral, _ => .ok .VNil
  | .literal v, _ => .ok v

/-- Whether an operator is one of the four ordering comparisons. -/
def isOrderingOp (op : Op) : Bool :=
  op = .OpLT || op = .OpLE || op = .OpGT || op = .OpGE

/-- The numeric comparison each ordering operator denotes. -/
def numCompare (op : Op) (a b : Rat) : Bool :=
  match op with
  | .OpLT => decide (a < b)
  | .OpLE => decide (a ≤ b)
  | .OpGT => decide (a > b)
  | .OpGE => decide (a ≥ b)
  | _ => false

/-- The chronological comparison each ordering operator denotes. -/
def dateCompare (op : Op) (a b : Int) : Bool :=
  match op with
  | .OpLT => decide (a < b)
  | .OpLE => decide (a ≤ b)
  | .OpGT => decide (a > b)
  | .OpGE => decide (a ≥ b)
  | _ => false

/-- Characters that the LIKE translation passes through verbatim and
that the modelled regex fragment treats as literals. -/
def safeChar (c : Char) : Bool := !metaChar c && !(c = '.')

/-- SQL LIKE wildcard semantics exactly as the spec words them: `%`
matches any character sequence, `_` matches exactly one character, any
other pattern character matches itself, and the whole pattern must
cover the whole string (anchored at both ends). -/
def wildMatch : List Char → List Char → Bool
  | [], ds => ds.isEmpty
  | p :: ps, ds =>
    if p = '%' then ds.tails.any (fun suf => wildMatch ps suf)
    else if p = '_' then
      match ds with
      | _ :: ds2 => wildMatch ps ds2
      | [] => false
    else
      match ds with
      | d :: ds2 => p == d && wildMatch ps ds2
      | [] => false

/-- What the two `ReplaceAll` calls of `EvalLike` emit per pattern
character. -/
def likeTr (c : Char) : List Char :=
  if c = '%' then ['.', '*'] else if c = '_' then ['.'] else [c]

/-- The token each pattern character compiles to. -/
def likeTok (c : Char) : RTok :=
  if c = '%' then .anySeq else if c = '_' then .anyChar else .lit c

/-- The operators on which the two walkers' inline handling genuinely
differs: ordering comparisons (the monolithic walker has no date
fallback and a different error) and `between` (different arity error
message). -/
def divergentOp (op : Op) : Bool :=
  op = .OpLT || op = .OpLE || op = .OpGT || op = .OpGE || op = .OpBetween

/-- Trees on which the two walkers coincide: no ordering comparison,
no `between`, and no array-literal node. -/
def okNode : TSLNode → Bool
  | .identifier _ => true
  | .literal _ => true
  | .nullLiteral => true
  | .arrayLiteral _ => false
  | .unaryExpr _ right => okNode right
  | .binaryExpr op left right => !divergentOp op && okNode left && okNode right

theorem decide_lt_or_eq (d e : Int) : (decide (d < e) || decide (d = e)) = decide (d ≤ e) := by
  by_cases h : d ≤ e <;> by_cases h2 : d = e <;> simp_all <;> omega

theorem decide_gt_or_eq (d e : Int) : (decide (d > e) || decide (d = e)) = decide (d ≥ e) := by
  by_cases h : d ≥ e <;> by_cases h2 : d = e <;> simp_all <;> omega

/-- C1: for every ordering comparison (`<`, `<=`, `>`, `>=`) over two
evaluated operands, the evaluator (refactored walker, via
`evaluateCompareExpressions`) first tries numeric coercion on both
sides and, if either side fails, tries date coercion on both sides:
both numeric gives the numeric comparison, both date-coercible gives
the date comparison, and otherwise evaluation fails with a TypeMismatch
error expecting "number or date" reporting the two runtime kinds. -/
theorem claim1 (op : Op) (hop : isOrderingOp op = true) (l r : Value) :
    (applyBinaryOperator op l r = evaluateCompareExpressions op l r)
  ∧ (∀ a b, toFloat64 l = some a → toFloat64 r = some b →
      evaluateCompareExpressions op l r = .ok (.VBool (numCompare op a b)))
  ∧ (∀ d e, (toFloat64 l = none ∨ toFloat64 r = none) →
      toDate l = some d → toDate r = some e →
      evaluateCompareExpressions op l r = .ok (.VBool (dateCompare op d e)))
  ∧ ((toFloat64 l = none ∨ toFloat64 r = none) →
     (toDate l = none ∨ toDate r = none) →
      evaluateCompareExpressions op l r =
        .error (.typeMismatch "number or date"
          (.VString (goTypeName l ++ " and " ++ goTypeName r)))) := by
  have hdisp : applyBinaryOperator op l r = evaluateCompareExpressions op l r := by
    rcases op <;> simp [isOrderingOp] at hop <;> rfl
  refine ⟨hdisp, ?_, ?_, ?_⟩
  · intro a b ha hb
    rcases op <;> simp [isOrderingOp] at hop <;>
      simp [evaluateCompareExpressions, ha, hb, numCompare]
  · intro d e hnum hd he
    rcases op <;> simp [isOrderingOp] at hop <;>
      cases hl : toFloat64 l <;> cases hr : toFloat64 r <;>
        simp_all [evaluateCompareExpressions, dateCompare, decide_lt_or_eq, decide_gt_or_eq]
  · intro hnum hdate
    cases hl : toFloat64 l <;> cases hr : toFloat64 r <;>
      cases hdl : toDate l <;> cases hdr : toDate r <;>
        simp_all [evaluateCompareExpressions]

/-- C1 witness: two RFC-3339 strings compare as dates (`<` is true),
and `5 < "2024-01-01T00:00:00Z"` is a TypeMismatch expecting
"number or date". -/
theorem claim1_witness :
    isOrderingOp .OpLT = true
  ∧ evaluateCompareExpressions .OpLT
      (.VString "2024-01-01T00:00:00Z") (.VString "2025-01-01T00:00:00Z") = .ok (.VBool true)
  ∧ evaluateCompareExpressions .OpLT (.VFloat 5) (.VString "2024-01-01T00:00:00Z") =
      .error (.typeMismatch "number or date" (.VString "float64 and string")) := by
  refine ⟨rfl, ?_, ?_⟩
  · have h := (claim1 .OpLT rfl (.VString "2024-01-01T00:00:00Z")
      (.VString "2025-01-01T00:00:00Z")).2.2.1 _ _ (Or.inl rfl) rfl rfl
    rw [h]
    rfl
  · have h := (claim1 .OpLT rfl (.VFloat 5)
      (.VString "2024-01-01T00:00:00Z")).2.2.2 (Or.inr rfl) (Or.inl rfl)
    exact h

/-- C9: for every identifier node, a not-found lookup fails with
KeyNotFound carrying the identifier name; a found string value that
parses as RFC-3339 is promoted to the parsed Timestamp; every other
found value is returned unchanged. -/
theorem claim9 (name : String) (eval : EvalFn) :
    (eval name = none → EvalIdent name eval = .error (.keyNotFound name))
  ∧ (∀ s t, eval name = some (.VString s) → parseRFC3339 s = some t →
      EvalIdent name eval = .ok (.VTime t))
  ∧ (∀ s, eval name = some (.VString s) → parseRFC3339 s = none →
      EvalIdent name eval = .ok (.VString s))
  ∧ (∀ v, eval name = some v → asString v = none → EvalIdent name eval = .ok v) := by
  refine ⟨?_, ?_, ?_, ?_⟩
  · intro h; simp [EvalIdent, h]
  · intro s t h hp; simp [EvalIdent, h, hp]
  · intro s h hp; simp [EvalIdent, h, hp]
  · intro v h hs; cases v <;> simp_all [EvalIdent, asString]

/-- C9 witness: KeyNotFound, RFC-3339 promotion, a non-date string and
a number returned unchanged, all at concrete lookups. -/
theorem claim9_witness :
    EvalIdent "a" (fun _ => none) = .error (.keyNotFound "a")
  ∧ EvalIdent "a" (fun _ => some (.VString "2024-01-01T00:00:00Z")) =
      .ok (.VTime ((((((2024 * 13 + 1) * 32 + 1) * 24 + 0) * 60 + 0) * 60 + 0 : Nat) : Int))
  ∧ EvalIdent "a" (fun _ => some (.VString "joe")) = .ok (.VString "joe")
  ∧ EvalIdent "a" (fun _ => some (.VFloat 5)) = .ok (.VFloat 5) := by
  refine ⟨?_, ?_, ?_, ?_⟩
  · exact (claim9 "a" (fun _ => none)).1 rfl
  · exact (claim9 "a" _).2.1 "2024-01-01T00:00:00Z" _ rfl (by decide)
  · exact (claim9 "a" _).2.2.1 "joe" rfl rfl
  · exact (claim9 "a" _).2.2.2 (.VFloat 5) rfl rfl

/-- C7 counterexample: when both operands of `=` evaluate to arrays
(here, two identifiers looked up as `[]interface{}` values), the Go
comparison `leftVal == rightVal` panics (comparing an uncomparable
dynamic type) instead of returning their structural equality `true` —
so equality is not total and not structural on arrays. -/
theorem claim7_counterexample :
    Walk (.binaryExpr .OpEQ (.identifier "a") (.identifier "b"))
      (fun _ => some (.VArray [])) = .error .panicked := rfl

/-- C7 amended: for every pair of evaluated operands of which at most
one is an array, `=` returns their shallow Go interface equality (equal
kind and equal content) and `!=` its negation, never an error;
cross-kind pairs are simply unequal.  (When both operands are arrays
the comparison panics — see the counterexample.) -/
theorem claim7 (l r : Value) (h : isArr l = false ∨ isArr r = false) :
    ∃ b : Bool, applyBinaryOperator .OpEQ l r = .ok (.VBool b)
      ∧ applyBinaryOperator .OpNE l r = .ok (.VBool !b)
      ∧ (b = true ↔ l = r) := by
  cases l <;> cases r <;>
    first
    | (exact ⟨_, rfl, rfl, by simp [goInterfaceEq]⟩)
    | (simp [isArr] at h)

/-- C7 witness: `5 = "5"` (number vs string) evaluates without error to
false under `=` and true under `!=`. -/
theorem claim7_witness :
    (isArr (Value.VFloat 5) = false ∨ isArr (Value.VString "5") = false)
  ∧ ∃ b : Bool, applyBinaryOperator .OpEQ (.VFloat 5) (.VString "5") = .ok (.VBool b)
      ∧ applyBinaryOperator .OpNE (.VFloat 5) (.VString "5") = .ok (.VBool !b)
      ∧ (b = true ↔ Value.VFloat 5 = Value.VString "5") :=
  ⟨Or.inl rfl, claim7 (.VFloat 5) (.VString "5") (Or.inl rfl)⟩

/-- C6: with numeric operands, `/` and `%` by zero fail with
DivisionByZero labelled "division" and "modulus" respectively, and
`5.7 % 2 = 1` (fractional part dropped).  But the claim's "for a
non-zero right-hand operand, `%` ... returns the remainder as a
number" is wrong on the code: `5 % 0.5` passes the zero check, then
truncates `0.5` to the int64 `0` and panics with an integer division
by zero (the failing input of this code bug). -/
theorem claim6 :
    evaluateMathExpression .OpSlash (.VFloat 5) (.VFloat 0) = .error (.divisionByZero "division")
  ∧ evaluateMathExpression .OpPercent (.VFloat 5) (.VFloat 0) = .error (.divisionByZero "modulus")
  ∧ evaluateMathExpression .OpPercent (.VFloat (57/10)) (.VFloat 2) = .ok (.VFloat 1)
  ∧ evaluateMathExpression .OpPercent (.VFloat 5) (.VFloat (1/2)) = .error .panicked := by
  refine ⟨rfl, rfl, ?_, ?_⟩ <;>
    · simp only [evaluateMathExpression, toFloat64]
      norm_num [goTruncInt, goIntMod, Int.sign]

theorem decide_range_rat (a x b : Rat) :
    (decide (x ≥ a) && decide (x ≤ b)) = decide (a ≤ x ∧ x ≤ b) := by
  by_cases h1 : a ≤ x <;> by_cases h2 : x ≤ b <;> simp_all

theorem decide_range_int (a t b : Int) :
    (!decide (t < a) && !decide (t > b)) = decide (a ≤ t ∧ t ≤ b) := by
  by_cases h1 : a ≤ t <;> by_cases h2 : t ≤ b <;> simp_all

/-- C5: `between` requires its right operand to evaluate to an array of
exactly two elements (any other count is a TypeMismatch); a Number left
value coerces both bounds to numeric (Number or integer) and returns
the inclusive test min ≤ value ≤ max; a Timestamp left value requires
Timestamp bounds and returns the inclusive range test; any other left
kind, or bounds that fail to coerce, is a TypeMismatch. -/
theorem claim5 (v : Value) (arr : List Value) (rv : Value) :
    (asArray rv = none → applyBinaryOperator .OpBetween v rv =
      .error (.typeMismatch "array" (.VString (goTypeName rv))))
  ∧ (asArray rv = some arr → arr.length ≠ 2 → applyBinaryOperator .OpBetween v rv =
      .error (.typeMismatch "min and max values" (.VString (toString arr.length ++ " values"))))
  ∧ (∀ minv maxv, asArray rv = some [minv, maxv] → applyBinaryOperator .OpBetween v rv =
      (EvalBetween v minv maxv).map .VBool)
  ∧ (∀ x a b minv maxv, numBound minv = some a → numBound maxv = some b →
      EvalBetween (.VFloat x) minv maxv = .ok (decide (a ≤ x ∧ x ≤ b)))
  ∧ (∀ x minv maxv, (numBound minv = none ∨ numBound maxv = none) →
      EvalBetween (.VFloat x) minv maxv = .error (.typeMismatch "numeric values" (.VFloat x)))
  ∧ (∀ t a b, EvalBetween (.VTime t) (.VTime a) (.VTime b) = .ok (decide (a ≤ t ∧ t ≤ b)))
  ∧ (∀ t minv maxv, ((∀ a, minv ≠ .VTime a) ∨ (∀ b, maxv ≠ .VTime b)) →
      EvalBetween (.VTime t) minv maxv = .error (.typeMismatch "time values" (.VTime t)))
  ∧ (∀ minv maxv, (∀ x, v ≠ .VFloat x) → (∀ t, v ≠ .VTime t) →
      EvalBetween v minv maxv = .error (.typeMismatch "numeric or time.Time values" v)) := by
  refine ⟨?_, ?_, ?_, ?_, ?_, ?_, ?_, ?_⟩
  · intro h; rcases rv <;> simp_all [applyBinaryOperator, asArray]
  · intro h hlen
    rcases rv with _ | _ | _ | _ | _ | _ | vs <;> simp only [asArray] at h <;> cases h
    rcases arr with _ | ⟨a, _ | ⟨b, _ | ⟨c, rest⟩⟩⟩ <;> simp_all [applyBinaryOperator, asArray]
  · intro minv maxv h; rcases rv <;> simp_all [applyBinaryOperator, asArray, isValueInRange]
  · intro x a b minv maxv ha hb
    simp only [EvalBetween, ha, hb]
    exact congrArg Except.ok (decide_range_rat a x b)
  · intro x minv maxv h
    cases hm : numBound minv <;> cases hx : numBound maxv <;>
      simp_all [EvalBetween]
  · intro t a b
    simp only [EvalBetween]
    exact congrArg Except.ok (decide_range_int a t b)
  · intro t minv maxv h
    rcases minv <;> rcases maxv <;> simp_all [EvalBetween]
  · intro minv maxv h1 h2
    rcases v <;> simp_all [EvalBetween]

/-- C5 witness: between [10, 20] is inclusive (10 and 20 true, 9.999
and 20.001 false), integer bounds coerce, a 3-element array and a
string left value are TypeMismatch errors. -/
theorem claim5_witness :
    EvalBetween (.VFloat 10) (.VFloat 10) (.VFloat 20) = .ok true
  ∧ EvalBetween (.VFloat 20) (.VFloat 10) (.VFloat 20) = .ok true
  ∧ EvalBetween (.VFloat (9999/1000)) (.VFloat 10) (.VFloat 20) = .ok false
  ∧ EvalBetween (.VFloat (20001/1000)) (.VFloat 10) (.VFloat 20) = .ok false
  ∧ EvalBetween (.VFloat 15) (.VInt 10) (.VInt 20) = .ok true
  ∧ applyBinaryOperator .OpBetween (.VFloat 5) (.VArray [.VFloat 1, .VFloat 2, .VFloat 3]) =
      .error (.typeMismatch "min and max values" (.VString "3 values"))
  ∧ EvalBetween (.VString "x") (.VFloat 10) (.VFloat 20) =
      .error (.typeMismatch "numeric or time.Time values" (.VString "x")) := by
  have c := claim5 (.VString "x") [.VFloat 1, .VFloat 2, .VFloat 3]
    (.VArray [.VFloat 1, .VFloat 2, .VFloat 3])
  refine ⟨?_, ?_, ?_, ?_, ?_, ?_, ?_⟩
  · rw [c.2.2.2.1 10 10 20 (.VFloat 10) (.VFloat 20) rfl rfl]; norm_num
  · rw [c.2.2.2.1 20 10 20 (.VFloat 10) (.VFloat 20) rfl rfl]; norm_num
  · rw [c.2.2.2.1 (9999/1000) 10 20 (.VFloat 10) (.VFloat 20) rfl rfl]; norm_num
  · rw [c.2.2.2.1 (20001/1000) 10 20 (.VFloat 10) (.VFloat 20) rfl rfl]; norm_num
  · rw [c.2.2.2.1 15 10 20 (.VInt 10) (.VInt 20) rfl rfl]; norm_num
  · exact c.2.1 rfl (by decide)
  · exact c.2.2.2.2.2.2.2 (.VFloat 10) (.VFloat 20) (by intro x h; cases h) (by intro t h; cases h)

/-- C3 counterexample: a nil left value is not one of the four
supported kinds, yet `in` returns `false` without error rather than
the TypeMismatch the claim requires for "any other left-hand kind"
(shown both on `EvalIn` directly and through a full walk). -/
theorem claim3_counterexample :
    EvalIn .VNil [.VFloat 5] = .ok false
  ∧ Walk (.binaryExpr .OpIn (.identifier "a") (.arrayLiteral [.literal (.VFloat 5)]))
      (fun _ => some .VNil) = .ok (.VBool false) := ⟨rfl, rfl⟩

/-- C3 amended: `in` requires the right operand to evaluate to an
array (else TypeMismatch); a String/Number/Timestamp/Boolean left value
is tested for membership by same-kind equality (a Number also matches
integer items), items of other kinds simply never match and no error is
produced; a nil left value yields false without error; any other left
kind (integer, array) is a TypeMismatch. -/
theorem claim3 (v : Value) (arr : List Value) (rv : Value) :
    (asArray rv = none → applyBinaryOperator .OpIn v rv =
      .error (.typeMismatch "array" (.VString (goTypeName rv))))
  ∧ (asArray rv = some arr → applyBinaryOperator .OpIn v rv = (EvalIn v arr).map .VBool)
  ∧ (EvalIn .VNil arr = .ok false)
  ∧ (∀ s, (EvalIn (.VString s) arr = .ok true ↔ .VString s ∈ arr)
        ∧ ∃ b, EvalIn (.VString s) arr = .ok b)
  ∧ (∀ x : Rat, (EvalIn (.VFloat x) arr = .ok true ↔
        (.VFloat x ∈ arr ∨ ∃ i : Int, .VInt i ∈ arr ∧ (i : Rat) = x))
        ∧ ∃ b, EvalIn (.VFloat x) arr = .ok b)
  ∧ (∀ t : Int, (EvalIn (.VTime t) arr = .ok true ↔ .VTime t ∈ arr)
        ∧ ∃ b, EvalIn (.VTime t) arr = .ok b)
  ∧ (∀ c : Bool, (EvalIn (.VBool c) arr = .ok true ↔ .VBool c ∈ arr)
        ∧ ∃ b, EvalIn (.VBool c) arr = .ok b)
  ∧ (∀ i : Int, EvalIn (.VInt i) arr =
      .error (.typeMismatch "string, float64, time.Time, or bool" (.VInt i)))
  ∧ (∀ vs, EvalIn (.VArray vs) arr =
      .error (.typeMismatch "string, float64, time.Time, or bool" (.VArray vs))) := by
  refine ⟨?_, ?_, rfl, ?_, ?_, ?_, ?_, fun i => rfl, fun vs => rfl⟩
  · intro h; rcases rv <;> simp_all [applyBinaryOperator, asArray]
  · intro h; rcases rv <;> simp_all [applyBinaryOperator, asArray, isValueInArray]
  · intro s
    refine ⟨?_, ⟨_, rfl⟩⟩
    simp only [EvalIn, Except.ok.injEq, List.any_eq_true]
    constructor
    · rintro ⟨it, hmem, hf⟩; cases it <;> simp_all
    · intro hmem; exact ⟨_, hmem, by simp⟩
  · intro x
    refine ⟨?_, ⟨_, rfl⟩⟩
    simp only [EvalIn, Except.ok.injEq, List.any_eq_true]
    constructor
    · rintro ⟨it, hmem, hf⟩
      cases it <;> simp_all
      rename_i i
      exact Or.inr ⟨i, hmem, hf⟩
    · rintro (hmem | ⟨i, hmem, hi⟩)
      · exact ⟨_, hmem, by simp⟩
      · exact ⟨_, hmem, by simp [hi]⟩
  · intro t
    refine ⟨?_, ⟨_, rfl⟩⟩
    simp only [EvalIn, Except.ok.injEq, List.any_eq_true]
    constructor
    · rintro ⟨it, hmem, hf⟩; cases it <;> simp_all
    · intro hmem; exact ⟨_, hmem, by simp⟩
  · intro c
    refine ⟨?_, ⟨_, rfl⟩⟩
    simp only [EvalIn, Except.ok.injEq, List.any_eq_true]
    constructor
    · rintro ⟨it, hmem, hf⟩; cases it <;> simp_all
    · intro hmem; exact ⟨_, hmem, by simp⟩

/-- C3 witness: `5 in (5.0, 6.0)` membership via the characterization,
an integer left value is a TypeMismatch, and a non-array right operand
is a TypeMismatch. -/
theorem claim3_witness :
    (EvalIn (.VFloat 5) [.VFloat 5, .VFloat 6] = .ok true ↔
      (Value.VFloat 5 ∈ [Value.VFloat 5, Value.VFloat 6] ∨
        ∃ i : Int, Value.VInt i ∈ [Value.VFloat 5, Value.VFloat 6] ∧ (i : Rat) = 5))
  ∧ EvalIn (.VInt 3) [.VFloat 5] =
      .error (.typeMismatch "string, float64, time.Time, or bool" (.VInt 3))
  ∧ applyBinaryOperator .OpIn (.VFloat 5) (.VFloat 7) =
      .error (.typeMismatch "array" (.VString "float64")) := by
  refine ⟨(claim3 (.VFloat 5) [.VFloat 5, .VFloat 6] .VNil).2.2.2.2.1 5 |>.1, ?_, ?_⟩
  · exact (claim3 (.VInt 3) [.VFloat 5] .VNil).2.2.2.2.2.2.2.1 3
  · exact (claim3 (.VFloat 5) [] (.VFloat 7)).1 rfl

/-- C2: for every BinaryExpr, both walkers evaluate the right child
before the left child: a right-child error is returned as-is (the left
child's outcome is irrelevant), a left-child error after a successful
right child is returned as-is (no short-circuiting, even for `and`/`or`
when the right value alone would determine the result), and with two
successful children the operator dispatch receives both values — so the
caller sees exactly the first failure in right-then-left order. -/
theorem claim2 (op : Op) (l r : TSLNode) (eval : EvalFn) :
    (∀ e, Walk r eval = .error e → Walk (.binaryExpr op l r) eval = .error e)
  ∧ (∀ rv e, Walk r eval = .ok rv → Walk l eval = .error e →
      Walk (.binaryExpr op l r) eval = .error e)
  ∧ (∀ rv lv, Walk r eval = .ok rv → Walk l eval = .ok lv →
      Walk (.binaryExpr op l r) eval = applyBinaryOperator op lv rv)
  ∧ (∀ e, WalkMono r eval = .error e → WalkMono (.binaryExpr op l r) eval = .error e)
  ∧ (∀ rv e, WalkMono r eval = .ok rv → WalkMono l eval = .error e →
      WalkMono (.binaryExpr op l r) eval = .error e)
  ∧ (∀ rv lv, WalkMono r eval = .ok rv → WalkMono l eval = .ok lv →
      WalkMono (.binaryExpr op l r) eval = applyBinaryMono op lv rv) := by
  refine ⟨?_, ?_, ?_, ?_, ?_, ?_⟩
  · intro e h; simp [Walk, h]
  · intro rv e hr hl; simp [Walk, hr, hl]
  · intro rv lv hr hl; simp [Walk, hr, hl]
  · intro e h; simp [WalkMono, h]
  · intro rv e hr hl; simp [WalkMono, hr, hl]
  · intro rv lv hr hl; simp [WalkMono, hr, hl]

/-- C2 witness: `or` is not short-circuiting — the right child's
KeyNotFound error surfaces, and a true right child does not rescue a
failing left child. -/
theorem claim2_witness :
    Walk (.binaryExpr .OpOr (.literal (.VBool false)) (.identifier "x")) (fun _ => none) =
      .error (.keyNotFound "x")
  ∧ Walk (.binaryExpr .OpOr (.identifier "x") (.literal (.VBool true))) (fun _ => none) =
      .error (.keyNotFound "x") := by
  constructor
  · exact (claim2 .OpOr (.literal (.VBool false)) (.identifier "x") (fun _ => none)).1
      (.keyNotFound "x") rfl
  · exact (claim2 .OpOr (.identifier "x") (.literal (.VBool true)) (fun _ => none)).2.1
      (.VBool true) (.keyNotFound "x") rfl rfl

/-- C4: an ArrayLiteral evaluates every child left-to-right preserving
order (the result array has one value per child, positionally), and if
some child fails while all children before it succeed, that first
error is the result and no partial array is produced. -/
theorem claim4 (eval : EvalFn) :
    (∀ cs vs, walkList cs eval = .ok vs →
        Walk (.arrayLiteral cs) eval = .ok (.VArray vs)
      ∧ vs.length = cs.length
      ∧ ∀ i (hc : i < cs.length) (hv : i < vs.length),
          Walk (cs.get ⟨i, hc⟩) eval = .ok (vs.get ⟨i, hv⟩))
  ∧ (∀ cs, (∀ c ∈ cs, ∃ v, Walk c eval = .ok v) → ∃ vs, walkList cs eval = .ok vs)
  ∧ (∀ pre c post e, (∀ c2 ∈ pre, ∃ v, Walk c2 eval = .ok v) → Walk c eval = .error e →
      Walk (.arrayLiteral (pre ++ c :: post)) eval = .error e) := by
  have herr : ∀ pre c post e, (∀ c2 ∈ pre, ∃ v, Walk c2 eval = .ok v) →
      Walk c eval = .error e → walkList (pre ++ c :: post) eval = .error e := by
    intro pre c post e hpre hc
    induction pre with
    | nil => simp [walkList, hc]
    | cons p pre ih =>
      obtain ⟨v, hv⟩ := hpre p (by simp)
      have := ih (fun c2 hm => hpre c2 (by simp [hm]))
      simp [walkList, hv, this]
  refine ⟨?_, ?_, ?_⟩
  · intro cs
    induction cs with
    | nil =>
      intro vs h
      simp [walkList] at h
      subst h
      exact ⟨rfl, rfl, fun i hc hv => absurd hc (by simp)⟩
    | cons c cs ih =>
      intro vs h
      cases hc : Walk c eval with
      | error e => simp [walkList, hc] at h
      | ok v =>
        cases hcs : walkList cs eval with
        | error e => simp [walkList, hc, hcs] at h
        | ok ws =>
          simp [walkList, hc, hcs] at h
          subst h
          obtain ⟨_, hlen, hget⟩ := ih ws hcs
          refine ⟨by simp [Walk, walkList, hc, hcs], by simp [hlen], ?_⟩
          intro i hcl hvl
          match i with
          | 0 => simpa using hc
          | Nat.succ j => simpa using hget j (by simpa using hcl) (by simpa using hvl)
  · intro cs hok
    induction cs with
    | nil => exact ⟨[], rfl⟩
    | cons c cs ih =>
      obtain ⟨v, hv⟩ := hok c (by simp)
      obtain ⟨vs, hvs⟩ := ih (fun c2 hm => hok c2 (by simp [hm]))
      exact ⟨v :: vs, by simp [walkList, hv, hvs]⟩
  · intro pre c post e hpre hc
    simp [Walk, herr pre c post e hpre hc]

/-- C4 witness: a two-literal array evaluates to the ordered value
array; a failing second child aborts the evaluation with its error. -/
theorem claim4_witness :
    Walk (.arrayLiteral [.literal (.VFloat 1), .literal (.VString "a")]) (fun _ => none) =
      .ok (.VArray [.VFloat 1, .VString "a"])
  ∧ Walk (.arrayLiteral [.literal (.VFloat 1), .identifier "x", .identifier "y"])
      (fun _ => none) = .error (.keyNotFound "x") := by
  constructor
  · exact ((claim4 (fun _ => none)).1 [.literal (.VFloat 1), .literal (.VString "a")]
      [.VFloat 1, .VString "a"] rfl).1
  · exact (claim4 (fun _ => none)).2.2 [.literal (.VFloat 1)] (.identifier "x")
      [.identifier "y"] (.keyNotFound "x")
      (by rintro c2 hm; simp at hm; subst hm; exact ⟨.VFloat 1, rfl⟩) rfl

theorem data_mk (l : List Char) : (String.mk l).data = l := rfl

theorem data_append (a b : String) : (a ++ b).data = a.data ++ b.data := by
  cases a; cases b; rfl

theorem translate_data (p : String) :
    (replaceAllChar (replaceAllChar p '%' ".*") '_' ".").data = p.data.flatMap likeTr := by
  show (p.data.flatMap (fun c => if c = '%' then ['.', '*'] else [c])).flatMap
      (fun c => if c = '_' then ['.'] else [c]) = p.data.flatMap likeTr
  induction p.data with
  | nil => rfl
  | cons c cs ih =>
    by_cases h1 : c = '%' <;> by_cases h2 : c = '_' <;>
      simp_all [likeTr]

theorem flatMap_likeTr_head (cs : List Char) (h : ∀ c ∈ cs, safeChar c = true) :
    ∀ d rest, cs.flatMap likeTr = d :: rest → d ≠ '*' := by
  cases cs with
  | nil => intro d rest hh; simp at hh
  | cons c cs =>
    intro d rest hh
    have hc := h c (by simp)
    by_cases h1 : c = '%' <;> by_cases h2 : c = '_' <;>
      simp_all [likeTr, safeChar, metaChar] <;>
      · intro hd
        rw [hd] at hh
        simp at hh

theorem compileRegex_one (c : Char) :
    compileRegex [c] =
      if c = '.' then some [.anyChar]
      else if metaChar c then none
      else some [.lit c] := rfl

theorem compileRegex_cons2 (c r2 : Char) (rest2 : List Char) :
    compileRegex (c :: r2 :: rest2) =
      if c = '.' then
        (if r2 = '*' then (compileRegex rest2).map (fun ts => .anySeq :: ts)
          else (compileRegex (r2 :: rest2)).map (fun ts => .anyChar :: ts))
      else if metaChar c then none
      else (compileRegex (r2 :: rest2)).map (fun ts => .lit c :: ts) := rfl

theorem compile_translate (cs : List Char) (h : ∀ c ∈ cs, safeChar c = true) :
    compileRegex (cs.flatMap likeTr) = some (cs.map likeTok) := by
  induction cs with
  | nil => rfl
  | cons c cs ih =>
    have hc := h c (by simp)
    have ihh := ih (fun c2 hm => h c2 (by simp [hm]))
    by_cases h1 : c = '%'
    · subst h1
      simp [likeTr, likeTok, compileRegex, List.flatMap] at ihh ⊢
      exact ihh
    · by_cases h2 : c = '_'
      · subst h2
        cases htail : cs.flatMap likeTr with
        | nil =>
          simp [likeTr, likeTok, compileRegex, htail] at ihh ⊢
          cases cs with
          | nil => rfl
          | cons c2 cs2 => simp_all
        | cons d rest =>
          have hd := flatMap_likeTr_head cs (fun c2 hm => h c2 (by simp [hm])) d rest htail
          simp [likeTr, likeTok, compileRegex, htail, hd, ihh]
          rw [← htail]
          exact ihh
      · have hsafe : safeChar c = true := hc
        have hmeta : metaChar c = false := by
          simp [safeChar] at hsafe; simp [hsafe.1]
        have hdot : ¬(c = '.') := by
          simp [safeChar] at hsafe; exact hsafe.2
        have hstep : (c :: cs).flatMap likeTr = c :: cs.flatMap likeTr := by
          simp [likeTr, h1, h2]
        rw [hstep]
        cases hr : cs.flatMap likeTr with
        | nil =>
          have hcs : cs = [] := by
            cases cs with
            | nil => rfl
            | cons c2 cs2 =>
              exfalso
              have hne : likeTr c2 ≠ [] := by
                by_cases a : c2 = '%' <;> by_cases b : c2 = '_' <;> simp [likeTr, a, b]
              simp [List.flatMap_cons, List.append_eq_nil] at hr
              exact hne hr.1
          subst hcs
          rw [compileRegex_one, if_neg hdot]
          simp [hmeta, likeTok, h1, h2]
        | cons d rest =>
          rw [hr] at ihh
          rw [compileRegex_cons2, if_neg hdot]
          simp [hmeta, ihh, likeTok, h1, h2]

theorem wildMatch_cons (c : Char) (ps ds : List Char) :
    wildMatch (c :: ps) ds =
      if c = '%' then ds.tails.any (fun suf => wildMatch ps suf)
      else if c = '_' then
        match ds with
        | _ :: ds2 => wildMatch ps ds2
        | [] => false
      else
        match ds with
        | d :: ds2 => c == d && wildMatch ps ds2
        | [] => false := by
  cases ds <;> rw [wildMatch.eq_def]

theorem tokensMatch_map (ps : List Char) : ∀ ds,
    tokensMatch (ps.map likeTok) ds = wildMatch ps ds := by
  induction ps with
  | nil => intro ds; rfl
  | cons c ps ih =>
    intro ds
    rw [List.map_cons, wildMatch_cons]
    by_cases h1 : c = '%'
    · have ht : likeTok c = .anySeq := by simp [likeTok, h1]
      rw [ht, if_pos h1]
      show ds.tails.any (fun suf => tokensMatch (ps.map likeTok) suf) = _
      exact congrArg _ (funext fun suf => ih suf)
    · by_cases h2 : c = '_'
      · have ht : likeTok c = .anyChar := by simp [likeTok, h1, h2]
        rw [ht, if_neg h1, if_pos h2]
        cases ds with
        | nil => rfl
        | cons d ds2 => exact ih ds2
      · have ht : likeTok c = .lit c := by simp [likeTok, h1, h2]
        rw [ht, if_neg h1, if_neg h2]
        cases ds with
        | nil => rfl
        | cons d ds2 => simp [tokensMatch, ih ds2]

theorem string_ext_data (a b : String) (h : a.data = b.data) : a = b := by
  cases a; cases b; exact congrArg String.mk h

theorem goRegexpMatch_anchored (mid : List Char) (v : String) :
    goRegexpMatch (String.mk ('^' :: (mid ++ ['$']))) v =
      (compileRegex mid).map (fun ts => tokensMatch ts v.data) := by
  simp [goRegexpMatch, List.getLast?_concat, List.dropLast_concat]

/-- C8: `like`/`ilike` require both operands to be strings (else
TypeMismatch, reporting the offending value); for a pattern of
ordinary characters and the wildcards `%` (any sequence) and `_`
(exactly one character), the translated regex is anchored at both ends
and matching follows exactly the SQL LIKE semantics `wildMatch`; any
pattern, even one malformed after translation, yields a boolean and
never an error; `ilike` lower-cases both operands and then behaves as
`like`. -/
theorem claim8 (l r : Value) :
    ((∀ s, l ≠ .VString s) → EvalLike l r = .error (.typeMismatch "string" l)
      ∧ EvalILike l r = .error (.typeMismatch "string" l))
  ∧ (∀ s, (∀ t, r ≠ .VString t) →
      EvalLike (.VString s) r = .error (.typeMismatch "string" r)
      ∧ EvalILike (.VString s) r = .error (.typeMismatch "string" r))
  ∧ (∀ v p : String, (∀ c ∈ p.data, safeChar c = true) →
      EvalLike (.VString v) (.VString p) = .ok (wildMatch p.data v.data))
  ∧ (∀ v p : String, ∃ b, EvalLike (.VString v) (.VString p) = .ok b)
  ∧ (∀ v p : String, EvalILike (.VString v) (.VString p) =
      EvalLike (.VString (goToLower v)) (.VString (goToLower p))) := by
  refine ⟨?_, ?_, ?_, fun v p => ⟨_, rfl⟩, fun v p => rfl⟩
  · intro h
    rcases l <;> simp_all [EvalLike, EvalILike, asString]
  · intro s h
    rcases r <;> simp_all [EvalLike, EvalILike, asString]
  · intro v p hsafe
    show Except.ok ((goRegexpMatch ("^" ++
      (replaceAllChar (replaceAllChar p '%' ".*") '_' ".") ++ "$") v).getD false) = _
    have hstr : ("^" ++ (replaceAllChar (replaceAllChar p '%' ".*") '_' ".") ++ "$") =
        String.mk ('^' :: (p.data.flatMap likeTr ++ ['$'])) := by
      apply string_ext_data
      rw [data_append, data_append, translate_data]
      simp [data_mk]
    rw [hstr, goRegexpMatch_anchored, compile_translate p.data hsafe]
    simp [tokensMatch_map]

/-- C8 witness: "jo%" matches "joe" and "johanna" but not "mjo";
"j_e" matches "joe" but not "jooe"; ilike folds case; a malformed
pattern still yields a boolean; a numeric operand is a TypeMismatch. -/
theorem claim8_witness :
    EvalLike (.VString "joe") (.VString "jo%") = .ok true
  ∧ EvalLike (.VString "johanna") (.VString "jo%") = .ok true
  ∧ EvalLike (.VString "mjo") (.VString "jo%") = .ok false
  ∧ EvalLike (.VString "joe") (.VString "j_e") = .ok true
  ∧ EvalLike (.VString "jooe") (.VString "j_e") = .ok false
  ∧ EvalILike (.VString "JOE") (.VString "jo%") =
      EvalLike (.VString (goToLower "JOE")) (.VString (goToLower "jo%"))
  ∧ (∃ b, EvalLike (.VString "abc") (.VString "a(b") = .ok b)
  ∧ EvalLike (.VFloat 5) (.VString "jo%") =
      .error (.typeMismatch "string" (.VFloat 5)) := by
  have c8 := fun v p h => ((claim8 (.VString "x") .VNil).2.2.1 v p h)
  refine ⟨?_, ?_, ?_, ?_, ?_, ?_, ?_, ?_⟩
  · rw [c8 "joe" "jo%" (by decide)]; rfl
  · rw [c8 "johanna" "jo%" (by decide)]; rfl
  · rw [c8 "mjo" "jo%" (by decide)]; rfl
  · rw [c8 "joe" "j_e" (by decide)]; rfl
  · rw [c8 "jooe" "j_e" (by decide)]; rfl
  · exact (claim8 (.VString "x") .VNil).2.2.2.2 "JOE" "jo%"
  · exact (claim8 (.VString "x") .VNil).2.2.2.1 "abc" "a(b"
  · exact ((claim8 (.VFloat 5) (.VString "jo%")).1 (fun s h => by cases h)).1

theorem applyBinary_agree (op : Op) (h : divergentOp op = false) (l r : Value) :
    applyBinaryMono op l r = applyBinaryOperator op l r := by
  cases op <;> simp [divergentOp] at h <;> try rfl
  all_goals
    cases hbl : asBool l <;> cases hbr : asBool r <;>
      cases hnl : toFloat64 l <;> cases hnr : toFloat64 r <;>
        simp [applyBinaryMono, applyBinaryOperator, evaluateLogicalExpression,
          evaluateMathExpression, requireNumber, hbl, hbr, hnl, hnr]

/-- C10 amended: the monolithic and the refactored walkers return the
same outcome on every tree that contains no ordering comparison, no
`between`, and no array-literal node; on the excluded forms they
genuinely diverge (see the counterexample). -/
theorem claim10 (t : TSLNode) (h : okNode t = true) (eval : EvalFn) :
    Walk t eval = WalkMono t eval := by
  match t with
  | .identifier name => rfl
  | .literal v => rfl
  | .nullLiteral => rfl
  | .arrayLiteral cs => simp [okNode] at h
  | .unaryExpr op right =>
    have ih := claim10 right (by simpa [okNode] using h) eval
    simp only [Walk, WalkMono, ih]
  | .binaryExpr op left right =>
    simp only [okNode, Bool.and_eq_true, Bool.not_eq_true'] at h
    have ihl := claim10 left h.1.2 eval
    have ihr := claim10 right h.2 eval
    simp only [Walk, WalkMono, ihl, ihr]
    cases hwr : WalkMono right eval with
    | error e => rfl
    | ok rv =>
      cases hwl : WalkMono left eval with
      | error e => rfl
      | ok lv => exact (applyBinary_agree op h.1.1 lv rv).symm

/-- C10 witness: the two walkers agree on a concrete `and` tree. -/
theorem claim10_witness :
    okNode (.binaryExpr .OpAnd (.literal (.VBool true)) (.identifier "x")) = true
  ∧ Walk (.binaryExpr .OpAnd (.literal (.VBool true)) (.identifier "x"))
      (fun _ => some (.VBool true)) =
    WalkMono (.binaryExpr .OpAnd (.literal (.VBool true)) (.identifier "x"))
      (fun _ => some (.VBool true)) :=
  ⟨rfl, claim10 (.binaryExpr .OpAnd (.literal (.VBool true)) (.identifier "x")) rfl
    (fun _ => some (.VBool true))⟩

/-- C10 counterexample: the two walkers differ — on an ordering
comparison of two RFC-3339 strings (refactored: date comparison true;
monolithic: TypeMismatch "number"), on `in` over an array literal
(refactored: membership true; monolithic: the array literal evaluates
to nil, TypeMismatch "array"), and on `between` with a wrong-arity
array (different error messages). -/
theorem claim10_counterexample :
    Walk (.binaryExpr .OpLT (.literal (.VString "2024-01-01T00:00:00Z"))
        (.literal (.VString "2025-01-01T00:00:00Z"))) (fun _ => none) = .ok (.VBool true)
  ∧ WalkMono (.binaryExpr .OpLT (.literal (.VString "2024-01-01T00:00:00Z"))
        (.literal (.VString "2025-01-01T00:00:00Z"))) (fun _ => none) =
      .error (.typeMismatch "number" (.VString "string"))
  ∧ Walk (.binaryExpr .OpIn (.literal (.VFloat 5))
        (.arrayLiteral [.literal (.VFloat 5)])) (fun _ => none) = .ok (.VBool true)
  ∧ WalkMono (.binaryExpr .OpIn (.literal (.VFloat 5))
        (.arrayLiteral [.literal (.VFloat 5)])) (fun _ => none) =
      .error (.typeMismatch "array" (.VString "<nil>"))
  ∧ Walk (.binaryExpr .OpBetween (.literal (.VFloat 5)) (.identifier "a"))
      (fun _ => some (.VArray [])) =
      .error (.typeMismatch "min and max values" (.VString "0 values"))
  ∧ WalkMono (.binaryExpr .OpBetween (.literal (.VFloat 5)) (.identifier "a"))
      (fun _ => some (.VArray [])) =
      .error (.typeMismatch "2 values" (.VString "0 values"))
  ∧ Walk (.binaryExpr .OpLT (.literal (.VString "2024-01-01T00:00:00Z"))
        (.literal (.VString "2025-01-01T00:00:00Z"))) (fun _ => none) ≠
    WalkMono (.binaryExpr .OpLT (.literal (.VString "2024-01-01T00:00:00Z"))
        (.literal (.VString "2025-01-01T00:00:00Z"))) (fun _ => none) := by
  refine ⟨rfl, rfl, rfl, rfl, rfl, rfl, ?_⟩
  intro hcontra
  rw [show Walk (.binaryExpr .OpLT (.literal (.VString "2024-01-01T00:00:00Z"))
        (.literal (.VString "2025-01-01T00:00:00Z"))) (fun _ => none) = .ok (.VBool true)
      from rfl,
    show WalkMono (.binaryExpr .OpLT (.literal (.VString "2024-01-01T00:00:00Z"))
        (.literal (.VString "2025-01-01T00:00:00Z"))) (fun _ => none) =
      .error (.typeMismatch "number" (.VString "string")) from rfl] at hcontra
  exact Except.noConfusion hcontra
